import Mathlib

/-!
Verification of the k-beauty-landing-page repository against its
natural-language specification.

The repository ships a React frontend (src/frontend), a PostgreSQL schema
(src/database_schema.sql) and architecture notes for a Python backend whose
service code is not part of the source tree.  Frontend logic is embedded
directly from the TypeScript source; the backend Order Fulfillment and
Inventory Allocation Engine (fulfillment_service, inventory ledger,
affiliate/commission service, cancellation and refund handlers) is modelled
from the specification, since only its architecture diagrams, schema and
frontend callers appear in the sources.
-/

namespace KBeauty

/-! ## Frontend order form (src/frontend/src/components/OrderForm.tsx,
src/frontend/src/constants.ts) -/

/-- An entry of the REGIONS list in src/frontend/src/constants.ts. -/
structure Region where
  id : String
  label : String
  rate : Nat
deriving DecidableEq, Repr

/-- REGIONS from src/frontend/src/constants.ts lines 45-50. -/
def REGIONS : List Region :=
  [⟨"NCR", "NCR", 100⟩,
   ⟨"Luzon", "Luzon", 120⟩,
   ⟨"Visayas", "Visayas", 140⟩,
   ⟨"Mindanao", "Mindanao", 160⟩]

/-- PRODUCT.price from src/frontend/src/constants.ts line 11. -/
def PRODUCT_price : Nat := 750

/-- OrderForm.tsx line 115: productTotal = quantity * PRODUCT.price. -/
def productTotal (quantity : Nat) : Nat := quantity * PRODUCT_price

/-- JavaScript `x || 0` applied to a number: 0 (falsy) maps to 0,
anything else to itself. -/
def jsOrZero (x : Nat) : Nat := if x = 0 then 0 else x

/-- OrderForm.tsx line 117:
currentShippingFee = REGIONS.find((r) => r.id === formState.region)?.rate || 0. -/
def currentShippingFee (region : String) : Nat :=
  jsOrZero (((REGIONS.find? (fun r => r.id == region)).map Region.rate).getD 0)

/-- OrderForm.tsx line 118: totalAmount = productTotal + currentShippingFee. -/
def totalAmount (quantity : Nat) (region : String) : Nat :=
  productTotal quantity + currentShippingFee region

/-- A click on the quantity stepper of OrderForm.tsx (lines 323 and 330):
the minus button passes delta -1, the plus button passes delta 1. -/
inductive QuantityClick where
  | inc
  | dec
deriving DecidableEq, Repr

/-- The delta passed to handleQuantityChange by each button. -/
def clickDelta : QuantityClick → Int
  | .inc => 1
  | .dec => -1

/-- OrderForm.tsx lines 120-122:
setQuantity((prev) => Math.max(1, prev + delta)). -/
def handleQuantityChange (prev : Int) (delta : Int) : Int :=
  max 1 (prev + delta)

/-- The quantity state after a sequence of stepper clicks, starting from
useState(1) (OrderForm.tsx line 42). -/
def quantityAfter (clicks : List QuantityClick) : Int :=
  clicks.foldl (fun q c => handleQuantityChange q (clickDelta c)) 1

/-! ## Frontend shipment form (src/frontend/src/components/ShipmentForm.tsx,
src/frontend/src/utils/api.ts) -/

/-- The ShipmentRequest payload (src/frontend/src/types.ts): the body that
api.processShipment sends. -/
structure ShipmentRequest where
  carrier : String
  tracking_number : String
deriving DecidableEq, Repr

/-- JavaScript String.prototype.trim modelled on the character list:
drop leading and trailing whitespace. -/
def jsTrim (s : String) : String :=
  ⟨(((s.data.dropWhile Char.isWhitespace).reverse.dropWhile Char.isWhitespace).reverse)⟩

/-- ShipmentForm.tsx line 28:
isFormValid = carrier.trim() !== '' && trackingNumber.trim() !== ''. -/
def shipmentFormValid (carrier trackingNumber : String) : Bool :=
  (jsTrim carrier != "") && (jsTrim trackingNumber != "")

/-- ShipmentForm.tsx handleSubmit (lines 30-44) reduced to its data flow:
if the form is invalid it returns without calling api.processShipment
(modelled as none); otherwise it builds the trimmed payload and submits it
(modelled as some payload). -/
def handleSubmitShipment (carrier trackingNumber : String) : Option ShipmentRequest :=
  if shipmentFormValid carrier trackingNumber then
    some ⟨jsTrim carrier, jsTrim trackingNumber⟩
  else
    none

/-! ## Theorems for the frontend claims -/

/-- C7: for every quantity q ≥ 1 and every region in the REGIONS list, the
order form computes the product subtotal as q times the unit price 750, the
shipping fee as that region's rate, and the displayed total as subtotal plus
shipping fee. -/
theorem orderForm_totals (q : Nat) (r : Region) (_hq : 1 ≤ q) (hr : r ∈ REGIONS) :
    productTotal q = q * 750 ∧
    currentShippingFee r.id = r.rate ∧
    totalAmount q r.id = q * 750 + r.rate := by
  have hfee : currentShippingFee r.id = r.rate := by
    simp only [REGIONS, List.mem_cons, List.not_mem_nil, or_false] at hr
    rcases hr with rfl | rfl | rfl | rfl <;> rfl
  refine ⟨rfl, hfee, ?_⟩
  show productTotal q + currentShippingFee r.id = q * 750 + r.rate
  rw [hfee]
  rfl

/-- Witness for C7 at q = 2 and the Luzon region. -/
theorem orderForm_totals_witness :
    productTotal 2 = 2 * 750 ∧
    currentShippingFee "Luzon" = 120 ∧
    totalAmount 2 "Luzon" = 2 * 750 + 120 :=
  orderForm_totals 2 ⟨"Luzon", "Luzon", 120⟩ (by decide) (by decide)

/-- Helper for C8: the quantity fold keeps the quantity at least 1. -/
theorem quantityFold_ge_one (clicks : List QuantityClick) (q : Int) (h : 1 ≤ q) :
    1 ≤ clicks.foldl (fun q c => handleQuantityChange q (clickDelta c)) q := by
  induction clicks generalizing q with
  | nil => exact h
  | cons c rest ih =>
      exact ih _ (le_max_left 1 _)

/-- C8: in the order form the quantity starts at 1, stays at least 1 after
every sequence of increment and decrement clicks (so the checkout payload,
which sends the current quantity, carries quantity ≥ 1), and a decrement at
quantity 1 leaves it at 1. -/
theorem orderForm_quantity_ge_one (clicks : List QuantityClick) :
    quantityAfter [] = 1 ∧
    1 ≤ quantityAfter clicks ∧
    handleQuantityChange 1 (clickDelta .dec) = 1 := by
  refine ⟨rfl, ?_, rfl⟩
  exact quantityFold_ge_one clicks 1 le_rfl

/-- C9: if the order form's region matches no entry of REGIONS, the shipping
fee used is 0 and the displayed total equals the bare product total. -/
theorem orderForm_unknownRegion_freeShipping (q : Nat) (region : String)
    (h : REGIONS.find? (fun r => r.id == region) = none) :
    currentShippingFee region = 0 ∧ totalAmount q region = productTotal q := by
  have hfee : currentShippingFee region = 0 := by
    unfold currentShippingFee
    rw [h]
    rfl
  exact ⟨hfee, by unfold totalAmount; rw [hfee]; omega⟩

/-- Witness for C9 at region "Seoul" and q = 3. -/
theorem orderForm_unknownRegion_freeShipping_witness :
    currentShippingFee "Seoul" = 0 ∧ totalAmount 3 "Seoul" = productTotal 3 :=
  orderForm_unknownRegion_freeShipping 3 "Seoul" (by decide)

/-- C10: the shipment form submits (calls processShipment) exactly when both
the carrier and the tracking number are non-empty after trimming; a blank
field means no network call, and the submitted payload carries the trimmed
strings. -/
theorem shipmentForm_submit_guard (carrier trackingNumber : String) :
    (handleSubmitShipment carrier trackingNumber = none ↔
      (jsTrim carrier = "" ∨ jsTrim trackingNumber = "")) ∧
    (jsTrim carrier ≠ "" → jsTrim trackingNumber ≠ "" →
      handleSubmitShipment carrier trackingNumber =
        some ⟨jsTrim carrier, jsTrim trackingNumber⟩) := by
  unfold handleSubmitShipment shipmentFormValid
  by_cases hc : jsTrim carrier = "" <;> by_cases ht : jsTrim trackingNumber = "" <;>
    simp [hc, ht]

/-- Witness for C10: a carrier and tracking number with surrounding blanks
submit the trimmed payload. -/
theorem shipmentForm_submit_guard_witness :
    handleSubmitShipment " CJ " " track1 " =
      some ⟨jsTrim " CJ ", jsTrim " track1 "⟩ :=
  (shipmentForm_submit_guard " CJ " " track1 ").2 (by decide) (by decide)

/-! ## Order lifecycle state machine (spec section 4.4)

The backend handlers requestCancellation / approveCancellation /
requestRefund / approveRefund are not part of the source tree (only their
frontend caller src/frontend/src/components/OrderConfirmation.tsx and the
orders table of src/database_schema.sql are), so they are modelled from the
spec below. -/

/-- shipping_status values (database_schema.sql line 102). -/
inductive ShippingStatus where
  | pending
  | preparing
  | shipped
  | delivered
deriving DecidableEq, Repr, Fintype

/-- cancellation_status values (spec section 4.4). -/
inductive CancelStatus where
  | cancel_requested
  | cancelled
deriving DecidableEq, Repr, Fintype

/-- refund_status values (spec section 4.4). -/
inductive RefundStatus where
  | refund_requested
  | refunded
deriving DecidableEq, Repr, Fintype

/-- The cancellation/refund-relevant slice of an order row. -/
structure OrderFlow where
  shipping_status : ShippingStatus
  cancellation_status : Option CancelStatus
  refund_status : Option RefundStatus
deriving DecidableEq, Repr, Fintype

/-- Typed rejection of an illegal state transition (spec section 7). -/
inductive DomainError where
  | illegalTransition
deriving DecidableEq, Repr, Fintype

/-- Whether a handler call succeeded. -/
def exceptOk : Except DomainError OrderFlow → Bool
  | .ok _ => true
  | .error _ => false

instance {ε α : Type} [DecidableEq ε] [DecidableEq α] : DecidableEq (Except ε α) :=
  fun x y =>
    match x, y with
    | .ok a, .ok b =>
        if h : a = b then .isTrue (by rw [h]) else
          .isFalse (by intro hc; cases hc; exact h rfl)
    | .error a, .error b =>
        if h : a = b then .isTrue (by rw [h]) else
          .isFalse (by intro hc; cases hc; exact h rfl)
    | .ok _, .error _ => .isFalse (by intro hc; cases hc)
    | .error _, .ok _ => .isFalse (by intro hc; cases hc)

/-- Modelled from the spec: requestCancellation (sections 4.4 and 6); the
backend handler is missing from the source tree.  Precondition:
shipping_status in {pending, preparing} and no cancellation request exists
(cancellation_status transitions null to cancel_requested); otherwise a
domain error. -/
def requestCancellation (o : OrderFlow) : Except DomainError OrderFlow :=
  if (o.shipping_status = .pending ∨ o.shipping_status = .preparing) ∧
      o.cancellation_status = none then
    .ok { o with cancellation_status := some .cancel_requested }
  else
    .error .illegalTransition

/-- Modelled from the spec: approveCancellation (section 4.4); precondition:
the request is pending (cancellation_status = cancel_requested). -/
def approveCancellation (o : OrderFlow) : Except DomainError OrderFlow :=
  if o.cancellation_status = some .cancel_requested then
    .ok { o with cancellation_status := some .cancelled }
  else
    .error .illegalTransition

/-- Modelled from the spec: requestRefund (section 4.4); precondition:
shipping_status = delivered and no refund requested or completed
(refund_status transitions null to refund_requested). -/
def requestRefund (o : OrderFlow) : Except DomainError OrderFlow :=
  if o.shipping_status = .delivered ∧ o.refund_status = none then
    .ok { o with refund_status := some .refund_requested }
  else
    .error .illegalTransition

/-- Modelled from the spec: approveRefund (section 4.4); precondition: the
refund request is pending. -/
def approveRefund (o : OrderFlow) : Except DomainError OrderFlow :=
  if o.refund_status = some .refund_requested then
    .ok { o with refund_status := some .refunded }
  else
    .error .illegalTransition

/-- The order state after a handler call: the new state on success, the old
state on a domain error (an illegal transition changes nothing). -/
def stepState (f : OrderFlow → Except DomainError OrderFlow) (o : OrderFlow) :
    OrderFlow :=
  match f o with
  | .ok o' => o'
  | .error _ => o

/-- The cancellation/refund events an order can receive. -/
inductive OrderEvent where
  | reqCancel
  | appCancel
  | reqRefund
  | appRefund
deriving DecidableEq, Repr, Fintype

/-- The order state after one event. -/
def applyEvent (e : OrderEvent) (o : OrderFlow) : OrderFlow :=
  match e with
  | .reqCancel => stepState requestCancellation o
  | .appCancel => stepState approveCancellation o
  | .reqRefund => stepState requestRefund o
  | .appRefund => stepState approveRefund o

/-- The edges refund_status may follow: stay put, null to refund_requested,
or refund_requested to refunded. -/
def refundEdge (a b : Option RefundStatus) : Prop :=
  a = b ∨ (a = none ∧ b = some .refund_requested) ∨
    (a = some .refund_requested ∧ b = some .refunded)

instance (a b : Option RefundStatus) : Decidable (refundEdge a b) := by
  unfold refundEdge
  infer_instance

/-- C5: requesting cancellation on a shipped or delivered order fails with a
domain error and leaves cancellation_status unchanged; the request succeeds
exactly when shipping_status is pending or preparing and no cancellation
request already exists. -/
theorem requestCancellation_spec (o : OrderFlow) :
    ((o.shipping_status = .shipped ∨ o.shipping_status = .delivered) →
      requestCancellation o = .error .illegalTransition ∧
      (stepState requestCancellation o).cancellation_status =
        o.cancellation_status) ∧
    (exceptOk (requestCancellation o) = true ↔
      ((o.shipping_status = .pending ∨ o.shipping_status = .preparing) ∧
        o.cancellation_status = none)) := by
  revert o
  decide

/-- Witness for C5: a shipped order with no cancellation request is
rejected and its cancellation_status stays none. -/
theorem requestCancellation_spec_witness :
    requestCancellation ⟨.shipped, none, none⟩ = .error .illegalTransition ∧
    (stepState requestCancellation ⟨.shipped, none, none⟩).cancellation_status =
      (⟨.shipped, none, none⟩ : OrderFlow).cancellation_status :=
  (requestCancellation_spec ⟨.shipped, none, none⟩).1 (Or.inl rfl)

/-- C6: requesting a refund succeeds exactly when shipping_status is
delivered and no refund was requested or completed, and under every handler
event refund_status only moves along null to refund_requested to refunded
(or stays put). -/
theorem requestRefund_spec (o : OrderFlow) (e : OrderEvent) :
    (exceptOk (requestRefund o) = true ↔
      (o.shipping_status = .delivered ∧ o.refund_status = none)) ∧
    refundEdge o.refund_status (applyEvent e o).refund_status := by
  revert o e
  decide

/-! ## Partner inventory ledger (spec section 4.1)

The backend inventory ledger (inventory_repository and the decrement used by
fulfillment_service.allocate_order_to_partner) is not part of the source
tree; only the partner_allocated_inventory table of src/database_schema.sql
(lines 61-77: allocated_quantity, remaining_quantity, stock_version) and the
architecture diagrams name it.  It is modelled from the spec below. -/

/-- A row of partner_allocated_inventory (database_schema.sql lines 61-77).
Quantities are Int as in the schema (INT columns); stock_version is the
optimistic-lock counter, named version as in the spec. -/
structure InventoryRow where
  partner_id : Nat
  product_id : Nat
  allocated_quantity : Int
  remaining_quantity : Int
  version : Nat
deriving DecidableEq, Repr

/-- A row of fulfillment_partners (database_schema.sql lines 25-36):
the fields the selection policy reads. -/
structure Partner where
  id : Nat
  is_active : Bool
  last_allocated_at : Option Nat
deriving DecidableEq, Repr

/-- A row of shipment_allocations (database_schema.sql lines 140-150). -/
structure AllocRow where
  order_id : Nat
  order_item_id : Nat
  partner_id : Nat
  quantity : Int
deriving DecidableEq, Repr

/-- The persistent state the allocation engine touches: partner rows,
inventory rows, shipment-allocation rows, and the transaction clock used
for last_allocated_at updates. -/
structure Ledger where
  partners : List Partner
  inventory : List InventoryRow
  allocations : List AllocRow
  now : Nat
deriving DecidableEq, Repr

/-- Result of tryDecrement (spec section 4.1). -/
inductive DecResult where
  | success (newRemaining : Int) (newVersion : Nat)
  | versionConflict
  | insufficientStock
deriving DecidableEq, Repr

/-- Row selector for a (partner, product) pair; the pair is unique in the
schema. -/
def rowMatch (pid prod : Nat) (r : InventoryRow) : Bool :=
  r.partner_id == pid && r.product_id == prod

/-- Read the (partner, product) inventory row. -/
def findRow (st : Ledger) (pid prod : Nat) : Option InventoryRow :=
  st.inventory.find? (rowMatch pid prod)

/-- Rewrite the first (partner, product) row in place. -/
def setRow (l : List InventoryRow) (pid prod : Nat)
    (f : InventoryRow → InventoryRow) : List InventoryRow :=
  match l with
  | [] => []
  | r :: rs => if rowMatch pid prod r then f r :: rs else r :: setRow rs pid prod f

/-- Modelled from the spec: tryDecrement (section 4.1); the ledger code is
missing from the source tree.  Reads the row, fails with insufficientStock
when remaining_quantity < quantity (no partial decrement), fails with
versionConflict when the stored version differs from expectedVersion, and on
success atomically writes remaining_quantity - quantity and version + 1. -/
def tryDecrement (st : Ledger) (pid prod : Nat) (qty : Int) (expectedVersion : Nat) :
    DecResult × Ledger :=
  match findRow st pid prod with
  | none => (.insufficientStock, st)
  | some row =>
      if row.remaining_quantity < qty then (.insufficientStock, st)
      else if row.version ≠ expectedVersion then (.versionConflict, st)
      else
        (.success (row.remaining_quantity - qty) (row.version + 1),
         { st with
            inventory := setRow st.inventory pid prod (fun r =>
              { r with
                  remaining_quantity := r.remaining_quantity - qty,
                  version := r.version + 1 }) })

/-- One tryDecrement call (which order/worker issued it is irrelevant to the
ledger). -/
structure DecCall where
  pid : Nat
  prod : Nat
  qty : Int
  expectedVersion : Nat
deriving DecidableEq, Repr

/-- A sequence of tryDecrement calls applied in order; each call is one
storage transaction, so any concurrent execution is one such sequence. -/
def applyDecrements (st : Ledger) (calls : List DecCall) : Ledger :=
  calls.foldl (fun s c => (tryDecrement s c.pid c.prod c.qty c.expectedVersion).2) st

/-- The per-row invariant of spec section 3:
0 ≤ remaining_quantity ≤ allocated_quantity. -/
def RowInv (r : InventoryRow) : Prop :=
  0 ≤ r.remaining_quantity ∧ r.remaining_quantity ≤ r.allocated_quantity

instance (r : InventoryRow) : Decidable (RowInv r) := by
  unfold RowInv
  infer_instance

/-- Every inventory row satisfies the row invariant. -/
def LedgerInv (st : Ledger) : Prop :=
  ∀ r ∈ st.inventory, RowInv r

instance (st : Ledger) : Decidable (LedgerInv st) := by
  unfold LedgerInv
  infer_instance

/-- Helper: an element of setRow l is an original element or the image of
the row find? locates. -/
theorem setRow_mem {pid prod : Nat} {f : InventoryRow → InventoryRow}
    (l : List InventoryRow) (row : InventoryRow)
    (hfind : l.find? (rowMatch pid prod) = some row) :
    ∀ x ∈ setRow l pid prod f, x ∈ l ∨ x = f row := by
  induction l with
  | nil => simp at hfind
  | cons r rs ih =>
      by_cases h : rowMatch pid prod r
      · rw [List.find?_cons_of_pos _ h] at hfind
        cases hfind
        intro x hx
        rw [setRow] at hx
        simp only [h, if_pos] at hx
        rcases List.mem_cons.mp hx with hx | hx
        · exact Or.inr hx
        · exact Or.inl (List.mem_cons_of_mem _ hx)
      · rw [List.find?_cons_of_neg _ h] at hfind
        intro x hx
        rw [setRow] at hx
        simp only [h, if_neg, Bool.false_eq_true, not_false_eq_true] at hx
        rcases List.mem_cons.mp hx with hx | hx
        · exact Or.inl (hx ▸ List.mem_cons_self r rs)
        · rcases ih hfind x hx with hx | hx
          · exact Or.inl (List.mem_cons_of_mem _ hx)
          · exact Or.inr hx

/-- Helper: one tryDecrement call preserves the ledger invariant when the
requested quantity is non-negative. -/
theorem tryDecrement_step_inv (st : Ledger) (pid prod : Nat) (qty : Int)
    (ev : Nat) (hq : 0 ≤ qty) (hinv : LedgerInv st) :
    LedgerInv (tryDecrement st pid prod qty ev).2 := by
  unfold tryDecrement
  split
  · exact hinv
  · rename_i row hfind
    split
    · exact hinv
    · split
      · exact hinv
      · rename_i hrem hver
        intro x hx
        rcases setRow_mem st.inventory row hfind x hx with hx | hx
        · exact hinv x hx
        · have hrowinv := hinv row (List.mem_of_find?_eq_some hfind)
          subst hx
          unfold RowInv at hrowinv ⊢
          simp only
          omega

/-! ## Partner selection policy (spec section 4.2)

get_sorted_partners_for_allocation of fulfillment_service is named in
src/backend/docs/architecture/architecture_level3.md line 8 but its code is
missing from the source tree; it is modelled from the spec below. -/

/-- A ranked candidate: partner id, its available quantity for the product,
and its last_allocated_at. -/
structure Cand where
  pid : Nat
  avail : Int
  last : Option Nat
deriving DecidableEq, Repr

/-- Spec section 4.1: availableQuantity(partnerID, productID) reads the
row's remaining_quantity (0 when the partner holds no row). -/
def availableQuantity (st : Ledger) (pid prod : Nat) : Int :=
  match findRow st pid prod with
  | some r => r.remaining_quantity
  | none => 0

/-- Spec section 4.1: totalAvailableQuantity(productID) sums
availableQuantity over the active partners. -/
def totalAvailableQuantity (st : Ledger) (prod : Nat) : Int :=
  (st.partners.filter (fun p => p.is_active)).foldl
    (fun acc p => acc + availableQuantity st p.id prod) 0

/-- The candidate set of spec section 4.2: active partners with
availableQuantity > 0, in table order, before ranking. -/
def candidateRows (st : Ledger) (prod : Nat) : List Cand :=
  (st.partners.filter
      (fun p => p.is_active && decide (0 < availableQuantity st p.id prod))).map
    (fun p => ⟨p.id, availableQuantity st p.id prod, p.last_allocated_at⟩)

/-- Sort key for last_allocated_at: a partner never allocated (null) sorts
before every timestamp, and timestamps sort ascending. -/
def rankKey (c : Cand) : Nat :=
  match c.last with
  | none => 0
  | some t => t + 1

/-- The ranking order of spec section 4.2: last_allocated_at ascending
(null first), ties broken by availableQuantity descending. -/
def rankRel (a b : Cand) : Prop :=
  rankKey a < rankKey b ∨ (rankKey a = rankKey b ∧ b.avail ≤ a.avail)

instance : DecidableRel rankRel := fun a b => by
  unfold rankRel
  infer_instance

instance : IsTotal Cand rankRel :=
  ⟨fun a b => by unfold rankRel; omega⟩

instance : IsTrans Cand rankRel :=
  ⟨fun a b c hab hbc => by unfold rankRel at hab hbc ⊢; omega⟩

/-- Modelled from the spec: get_sorted_partners_for_allocation /
rankCandidates (section 4.2); the service code is missing from the source
tree.  Ranks the candidate set by rankRel. -/
def rankCandidates (st : Ledger) (prod : Nat) : List Cand :=
  List.insertionSort rankRel (candidateRows st prod)

/-- C3: after every sequence of tryDecrement calls with non-negative
quantities (each call is one storage transaction, so concurrent executions
are such sequences), every inventory row keeps
0 ≤ remaining_quantity ≤ allocated_quantity; and every successful decrement
bumps the row's version by exactly 1 (the returned newVersion is the old
version plus one). -/
theorem tryDecrement_ledger_invariant (calls : List DecCall) (st : Ledger)
    (hq : ∀ c ∈ calls, 0 ≤ c.qty) (hinv : LedgerInv st) :
    LedgerInv (applyDecrements st calls) ∧
    (∀ (st1 : Ledger) (pid prod : Nat) (qty : Int) (ev : Nat)
        (row : InventoryRow) (nr : Int) (nv : Nat),
      findRow st1 pid prod = some row →
      (tryDecrement st1 pid prod qty ev).1 = .success nr nv →
      nv = row.version + 1) := by
  constructor
  · induction calls generalizing st with
    | nil => exact hinv
    | cons c rest ih =>
        have hstep := tryDecrement_step_inv st c.pid c.prod c.qty c.expectedVersion
          (hq c (List.mem_cons_self c rest)) hinv
        exact ih _ (fun d hd => hq d (List.mem_cons_of_mem c hd)) hstep
  · intro st1 pid prod qty ev row nr nv hfind hsucc
    unfold tryDecrement at hsucc
    split at hsucc
    · simp at hsucc
    · rename_i row2 hfind2
      split at hsucc
      · simp at hsucc
      · split at hsucc
        · simp at hsucc
        · simp only [Prod.fst] at hsucc
          injection hsucc with hres hver
          rw [hfind] at hfind2
          injection hfind2 with hrow
          subst hrow
          omega

/-- Witness ledger: one partner with one inventory row of 10 allocated,
10 remaining, version 0. -/
def ledgerW : Ledger :=
  ⟨[⟨1, true, none⟩], [⟨1, 1, 10, 10, 0⟩], [], 5⟩

/-- Witness calls: two successful decrements of 4 and one attempt that
fails with insufficient stock. -/
def callsW : List DecCall :=
  [⟨1, 1, 4, 0⟩, ⟨1, 1, 4, 1⟩, ⟨1, 1, 4, 2⟩]

/-- Witness for C3: the invariant holds after the three calls, and the
successful first call returns version 1 = 0 + 1. -/
theorem tryDecrement_ledger_invariant_witness :
    LedgerInv (applyDecrements ledgerW callsW) ∧
    (1 : Nat) = (0 : Nat) + 1 :=
  ⟨(tryDecrement_ledger_invariant callsW ledgerW (by decide) (by decide)).1,
   (tryDecrement_ledger_invariant callsW ledgerW (by decide) (by decide)).2
     ledgerW 1 1 4 0 ⟨1, 1, 10, 10, 0⟩ 6 1 (by decide) (by decide)⟩

/-- C2: rankCandidates is sorted by rankRel (last_allocated_at ascending,
null first, ties by availableQuantity descending), is a permutation of the
candidate set, contains exactly the active partners with positive available
quantity, and is deterministic in the partner state. -/
theorem rankCandidates_spec (st : Ledger) (prod : Nat) :
    List.Sorted rankRel (rankCandidates st prod) ∧
    List.Perm (rankCandidates st prod) (candidateRows st prod) ∧
    (∀ c, c ∈ rankCandidates st prod ↔
      ∃ p ∈ st.partners, p.is_active = true ∧
        0 < availableQuantity st p.id prod ∧
        c = ⟨p.id, availableQuantity st p.id prod, p.last_allocated_at⟩) ∧
    (∀ st2, st = st2 → rankCandidates st prod = rankCandidates st2 prod) := by
  refine ⟨List.sorted_insertionSort rankRel _,
    List.perm_insertionSort rankRel _, ?_, ?_⟩
  · intro c
    unfold rankCandidates
    rw [(List.perm_insertionSort rankRel (candidateRows st prod)).mem_iff]
    unfold candidateRows
    simp only [List.mem_map, List.mem_filter, Bool.and_eq_true, decide_eq_true_eq]
    constructor
    · rintro ⟨p, ⟨hp, hact, hpos⟩, rfl⟩
      exact ⟨p, hp, hact, hpos, rfl⟩
    · rintro ⟨p, hp, hact, hpos, rfl⟩
      exact ⟨p, ⟨hp, hact, hpos⟩, rfl⟩
  · intro st2 h
    rw [h]

/-- Witness ledger for C2: three active partners with distinct
last_allocated_at and stock, one inactive, one drained. -/
def ledgerRank : Ledger :=
  ⟨[⟨1, true, some 30⟩, ⟨2, true, none⟩, ⟨3, true, some 10⟩,
    ⟨4, false, some 1⟩, ⟨5, true, some 2⟩],
   [⟨1, 7, 10, 5, 0⟩, ⟨2, 7, 10, 3, 0⟩, ⟨3, 7, 10, 8, 0⟩,
    ⟨4, 7, 10, 9, 0⟩, ⟨5, 7, 10, 0, 0⟩],
   [], 40⟩

/-- Witness for C2: the ranking of the witness ledger is sorted, and the
identical state yields the identical ranking. -/
theorem rankCandidates_spec_witness :
    List.Sorted rankRel (rankCandidates ledgerRank 7) ∧
    rankCandidates ledgerRank 7 = rankCandidates ledgerRank 7 :=
  ⟨(rankCandidates_spec ledgerRank 7).1,
   (rankCandidates_spec ledgerRank 7).2.2.2 ledgerRank rfl⟩

/-! ## Allocation engine (spec section 4.3)

allocate_order_to_partner of fulfillment_service is named in
src/backend/docs/architecture/architecture_level3.md line 8 but its code is
missing from the source tree; it is modelled from the spec below. -/

/-- Result of allocate (spec section 4.3). -/
inductive AllocResult where
  | fulfilled (rows : List AllocRow)
  | failed
deriving DecidableEq, Repr

/-- The stored version of the (partner, product) row, read before a
decrement attempt. -/
def currentVersion (st : Ledger) (pid prod : Nat) : Nat :=
  match findRow st pid prod with
  | some r => r.version
  | none => 0

/-- Modelled from the spec: the bounded version-conflict retry of section
4.3 step 3 (default 3 attempts); each attempt re-reads the current version
before calling tryDecrement. -/
def tryDecrementRetry : Nat → Ledger → Nat → Nat → Int → DecResult × Ledger
  | 0, st, _, _, _ => (.versionConflict, st)
  | fuel + 1, st, pid, prod, qty =>
      match tryDecrement st pid prod qty (currentVersion st pid prod) with
      | (.versionConflict, st2) => tryDecrementRetry fuel st2 pid prod qty
      | (.success nr nv, st2) => (.success nr nv, st2)
      | (.insufficientStock, st2) => (.insufficientStock, st2)

/-- Set the partner's last_allocated_at to the transaction clock (spec
section 4.3 step 3, on success). -/
def touchPartner (st : Ledger) (pid : Nat) : Ledger :=
  { st with
      partners := st.partners.map (fun p =>
        if p.id == pid then { p with last_allocated_at := some st.now } else p) }

/-- Commit the accumulated ShipmentAllocation rows as one unit (spec
section 4.3 step 4). -/
def commitAllocs (st : Ledger) (acc : List AllocRow) : Ledger :=
  { st with allocations := st.allocations ++ acc.reverse }

/-- One candidate step of the greedy loop (spec section 4.3 step 3): skip a
drained candidate, attempt min(need, availableQuantity) with bounded retry,
and on success record the allocation row, touch last_allocated_at and
reduce the remaining need. -/
def allocStep (oid lid prod : Nat) (st : Ledger) (need : Int)
    (acc : List AllocRow) (c : Cand) : Ledger × Int × List AllocRow :=
  let avail := availableQuantity st c.pid prod
  if avail ≤ 0 then (st, need, acc)
  else
    let take := min need avail
    match tryDecrementRetry 3 st c.pid prod take with
    | (.success _ _, st2) =>
        (touchPartner st2 c.pid, need - take, ⟨oid, lid, c.pid, take⟩ :: acc)
    | (.versionConflict, st2) => (st2, need, acc)
    | (.insufficientStock, st2) => (st2, need, acc)

/-- The greedy loop of spec section 4.3 steps 3-5: consume the ranked
snapshot in order; when the need reaches zero commit everything, and when
the candidates are exhausted with need left return failed and the original
state st0 (full rollback). -/
def allocGo (st0 : Ledger) (oid lid prod : Nat) :
    List Cand → Int → Ledger → List AllocRow → AllocResult × Ledger
  | [], need, st, acc =>
      if need ≤ 0 then (.fulfilled acc.reverse, commitAllocs st acc)
      else (.failed, st0)
  | c :: rest, need, st, acc =>
      if need ≤ 0 then (.fulfilled acc.reverse, commitAllocs st acc)
      else
        let s := allocStep oid lid prod st need acc c
        allocGo st0 oid lid prod rest s.2.1 s.1 s.2.2

/-- Modelled from the spec: allocate_order_to_partner / allocate (section
4.3); the service code is missing from the source tree.  Fast-fails when
totalAvailableQuantity is short, otherwise runs the greedy loop over the
snapshot ranking. -/
def allocate (st : Ledger) (oid lid prod : Nat) (q : Int) :
    AllocResult × Ledger :=
  if totalAvailableQuantity st prod < q then (.failed, st)
  else allocGo st oid lid prod (rankCandidates st prod) q st []

/-- Helper for C1: whenever the greedy loop fails it returns the untouched
initial state st0. -/
theorem allocGo_failed (st0 : Ledger) (oid lid prod : Nat)
    (cands : List Cand) :
    ∀ (need : Int) (st : Ledger) (acc : List AllocRow),
      (allocGo st0 oid lid prod cands need st acc).1 = .failed →
      (allocGo st0 oid lid prod cands need st acc).2 = st0 := by
  induction cands with
  | nil =>
      intro need st acc h
      rw [allocGo] at h ⊢
      by_cases hneed : need ≤ 0
      · rw [if_pos hneed] at h
        cases h
      · rw [if_neg hneed]
  | cons c rest ih =>
      intro need st acc h
      rw [allocGo] at h ⊢
      by_cases hneed : need ≤ 0
      · rw [if_pos hneed] at h
        cases h
      · rw [if_neg hneed] at h ⊢
        exact ih _ _ _ h

/-- C1: whenever allocate cannot fully satisfy the requested quantity and
returns failed, the persistent state is exactly as before the call: no
ShipmentAllocation row is persisted and no inventory row's
remaining_quantity or version is changed (any partial decrements made
during the attempt are rolled back). -/
theorem allocate_failed_rollback (st : Ledger) (oid lid prod : Nat) (q : Int)
    (h : (allocate st oid lid prod q).1 = .failed) :
    (allocate st oid lid prod q).2 = st ∧
    (allocate st oid lid prod q).2.allocations = st.allocations ∧
    (allocate st oid lid prod q).2.inventory = st.inventory := by
  have hstate : (allocate st oid lid prod q).2 = st := by
    unfold allocate at h ⊢
    by_cases hfast : totalAvailableQuantity st prod < q
    · rw [if_pos hfast]
    · rw [if_neg hfast] at h ⊢
      exact allocGo_failed st oid lid prod (rankCandidates st prod) q st [] h
  exact ⟨hstate, by rw [hstate], by rw [hstate]⟩

/-- Witness ledger for C1: partners with 5 and 10 remaining, 15 in total. -/
def ledgerAlloc : Ledger :=
  ⟨[⟨1, true, some 1⟩, ⟨2, true, some 2⟩],
   [⟨1, 7, 5, 5, 0⟩, ⟨2, 7, 10, 10, 0⟩],
   [], 9⟩

/-- Witness for C1: ordering quantity 20 against 15 available fails and
leaves the ledger exactly unchanged. -/
theorem allocate_failed_rollback_witness :
    (allocate ledgerAlloc 1 1 7 20).2 = ledgerAlloc ∧
    (allocate ledgerAlloc 1 1 7 20).2.allocations = ledgerAlloc.allocations ∧
    (allocate ledgerAlloc 1 1 7 20).2.inventory = ledgerAlloc.inventory :=
  allocate_failed_rollback ledgerAlloc 1 1 7 20 (by decide)

/-! ## Commission recorder (spec section 4.5)

record_marketing_commission_if_applicable of affiliate_service is named in
src/backend/docs/architecture/architecture_level3.md line 11 but its code
is missing from the source tree; only the affiliate_sales table
(src/database_schema.sql lines 196-205) appears.  It is modelled from the
spec below. -/

/-- A row of affiliate_sales: the CommissionRecord for one order. -/
structure CommissionRecord where
  order_id : Nat
  commission_amount : Int
deriving DecidableEq, Repr

/-- The persisted commission records. -/
structure CommissionState where
  records : List CommissionRecord
deriving DecidableEq, Repr

/-- Modelled from the spec: recordCommission (section 4.5); the affiliate
service code is missing from the source tree.  Idempotency guard: if a
CommissionRecord already exists for the order this is a no-op, otherwise
the record is created. -/
def recordCommission (st : CommissionState) (oid : Nat) (amt : Int) :
    CommissionState :=
  if st.records.any (fun r => r.order_id == oid) then st
  else ⟨⟨oid, amt⟩ :: st.records⟩

/-- How many CommissionRecords exist for an order. -/
def commissionCount (st : CommissionState) (oid : Nat) : Nat :=
  (st.records.filter (fun r => r.order_id == oid)).length

/-- Helper for C4: a repeated recordCommission call for an order that
already has a record changes no state. -/
theorem recordCommission_noop (st : CommissionState) (oid : Nat) (amt : Int)
    (h : 1 ≤ commissionCount st oid) : recordCommission st oid amt = st := by
  unfold recordCommission
  rw [if_pos]
  unfold commissionCount at h
  rw [List.any_eq_true]
  rcases List.exists_mem_of_length_pos (Nat.lt_of_lt_of_le Nat.zero_lt_one h)
    with ⟨r, hr⟩
  rcases List.mem_filter.mp hr with ⟨hmem, hid⟩
  exact ⟨r, hmem, hid⟩

/-- Helper for C4: the first recordCommission call for an order with no
record creates exactly one. -/
theorem recordCommission_first (st : CommissionState) (oid : Nat) (amt : Int)
    (h : commissionCount st oid = 0) :
    commissionCount (recordCommission st oid amt) oid = 1 := by
  unfold recordCommission
  rw [if_neg]
  · unfold commissionCount at h ⊢
    simp only [List.filter_cons, beq_self_eq_true, if_pos, List.length_cons, h]
  · rw [List.any_eq_true]
    rintro ⟨r, hr, hrid⟩
    unfold commissionCount at h
    rw [List.length_eq_zero] at h
    have : r ∈ st.records.filter (fun r => r.order_id == oid) :=
      List.mem_filter.mpr ⟨hr, hrid⟩
    rw [h] at this
    cases this

/-- Helper for C4: once exactly one record exists for the order, any
further iterations of recordCommission keep exactly one. -/
theorem recordCommission_stable (oid : Nat) (amt : Int) (m : Nat) :
    ∀ st : CommissionState, commissionCount st oid = 1 →
      commissionCount
        (Nat.iterate (fun s => recordCommission s oid amt) m st) oid = 1 := by
  induction m with
  | zero => exact fun st h => h
  | succ k ih =>
      intro st h
      rw [Function.iterate_succ_apply]
      rw [recordCommission_noop st oid amt (by omega)]
      exact ih st h

/-- C4: recordCommission is idempotent per order: starting from a state
with no record for the order, after any positive number of invocations
exactly one CommissionRecord exists for it; a repeated invocation creates
nothing and changes no state. -/
theorem recordCommission_idempotent (st : CommissionState) (oid : Nat)
    (amt : Int) (n : Nat) (h0 : commissionCount st oid = 0) (hn : 1 ≤ n) :
    commissionCount (Nat.iterate (fun s => recordCommission s oid amt) n st) oid = 1 ∧
    recordCommission (recordCommission st oid amt) oid amt =
      recordCommission st oid amt ∧
    (∀ st2 : CommissionState, 1 ≤ commissionCount st2 oid →
      recordCommission st2 oid amt = st2) := by
  refine ⟨?_, ?_, fun st2 h2 => recordCommission_noop st2 oid amt h2⟩
  · obtain ⟨m, rfl⟩ : ∃ m, n = m + 1 := ⟨n - 1, by omega⟩
    rw [Function.iterate_succ_apply]
    exact recordCommission_stable oid amt m (recordCommission st oid amt)
      (recordCommission_first st oid amt h0)
  · exact recordCommission_noop (recordCommission st oid amt) oid amt
      (by rw [recordCommission_first st oid amt h0])

/-- Witness for C4: three invocations on an empty state leave exactly one
record for order 42, and the second call is a no-op. -/
theorem recordCommission_idempotent_witness :
    commissionCount
      (Nat.iterate (fun s => recordCommission s 42 15) 3 ⟨[]⟩) 42 = 1 ∧
    recordCommission (recordCommission ⟨[]⟩ 42 15) 42 15 =
      recordCommission ⟨[]⟩ 42 15 :=
  ⟨(recordCommission_idempotent ⟨[]⟩ 42 15 3 (by decide) (by decide)).1,
   (recordCommission_idempotent ⟨[]⟩ 42 15 3 (by decide) (by decide)).2.1⟩

end KBeauty
